import Mathlib

/-!
Shallow embedding of `s3load` (upload subcommand), from `src/s3load/upload.py`
(latest snapshot of the repository). Text is modelled as `List Char`; Python
integers as `Int`; time stamps and durations as rationals injected through a
collaborator record; the storage client, the UUID generator and the stream
`close` outcome are likewise injected collaborators.
-/

deriving instance DecidableEq for Except

namespace S3Load

/-- ASCII whitespace recognised by Python's `str.strip`. -/
def pySpace (c : Char) : Bool :=
  c = ' ' || c = '\t' || c = '\n' || c = '\r' || c = '\x0b' || c = '\x0c'

/-- Python `str.strip()`: drop whitespace from both ends. -/
def pyStrip (s : List Char) : List Char :=
  ((s.dropWhile pySpace).reverse.dropWhile pySpace).reverse

/-- Numeric value of an ASCII decimal digit. -/
def digitVal (c : Char) : Nat := c.toNat - 48

/-- Tail of Python's integer-literal body: after a leading digit, each later
character is a digit or a single underscore followed by a digit. -/
def pyDigitsCore : Nat → List Char → Option Nat
  | acc, [] => some acc
  | acc, c :: rest =>
      if c = '_' then
        match rest with
        | [] => none
        | c2 :: rest2 =>
            if c2.isDigit then pyDigitsCore (acc * 10 + digitVal c2) rest2 else none
      else if c.isDigit then pyDigitsCore (acc * 10 + digitVal c) rest else none

/-- Body of a Python integer literal: a nonempty digit run, underscores only
between digits. -/
def pyDigits : List Char → Option Nat
  | [] => none
  | c :: rest => if c.isDigit then pyDigitsCore (digitVal c) rest else none

/-- Python `int(text)`: strips whitespace, allows one optional sign, then a
digit run (ASCII model). `none` models the raised `ValueError`. -/
def pyIntParse (s : List Char) : Option Int :=
  match pyStrip s with
  | [] => none
  | c :: rest =>
      if c = '-' then (pyDigits rest).map (fun n => -(n : Int))
      else if c = '+' then (pyDigits rest).map (fun n => (n : Int))
      else (pyDigits (c :: rest)).map (fun n => (n : Int))

/-- The `ValueError`s raised by `parse_size`. -/
inductive SizeError
  /-- "Object size must be a positive value" (empty after trimming). -/
  | emptyValue
  /-- "Invalid size value: {size_text}" (`int` failed); carries the original text. -/
  | invalidValue (original : List Char)
  /-- "Size must be non-negative" (parsed integer below zero). -/
  | negative
deriving DecidableEq, Repr

/-- Suffix handling of `parse_size`: if the (lowered) text ends in `k`, `m` or
`g`, the multiplier and the text with the last character removed; else
multiplier 1 and the text unchanged. -/
def stripSuffix (text : List Char) : Int × List Char :=
  if text.getLast? = some 'k' then (1024, text.dropLast)
  else if text.getLast? = some 'm' then (1024 ^ 2, text.dropLast)
  else if text.getLast? = some 'g' then (1024 ^ 3, text.dropLast)
  else (1, text)

/-- `parse_size` from `upload.py`: strip, lowercase, detect a `k`/`m`/`g`
suffix, parse the rest with `int`, reject negatives, multiply. -/
def parse_size (size_text : List Char) : Except SizeError Int :=
  let text := (pyStrip size_text).map Char.toLower
  if text = [] then .error .emptyValue
  else
    let p := stripSuffix text
    match pyIntParse p.2 with
    | none => .error (.invalidValue size_text)
    | some v => if v < 0 then .error .negative else .ok (v * p.1)

/-- The numeric portion of a size expression: the stripped, lowered text with
a recognised `k`/`m`/`g` suffix removed. -/
def sizeNumericPortion (size_text : List Char) : List Char :=
  (stripSuffix ((pyStrip size_text).map Char.toLower)).2

/-- Whether an `Except` is an error. -/
def isError {ε α : Type} : Except ε α → Bool
  | .error _ => true
  | .ok _ => false

/-- State of the Python class `RandomBytesIO` (`upload.py`): the bytes still
to deliver and the per-read chunk bound. Byte contents come from `os.urandom`
and are not modelled; only counts are. -/
structure RandomBytesSource where
  remaining : Int
  chunk_size : Int
deriving DecidableEq, Repr

/-- `RandomBytesIO.__init__`: rejects a negative `total_bytes` (`ValueError`,
modelled as `none`), coerces `chunk_size` to at least 1. The Python default
chunk is `1024 * 256`. -/
def RandomBytesSource.make (total_bytes : Int) (chunk_size : Int := 1024 * 256) :
    Option RandomBytesSource :=
  if total_bytes < 0 then none
  else some { remaining := total_bytes, chunk_size := max 1 chunk_size }

/-- `RandomBytesIO.readinto(b)` for a buffer of length `bufLen`: returns the
number of bytes written and the successor state. -/
def RandomBytesSource.readinto (s : RandomBytesSource) (bufLen : Nat) :
    Nat × RandomBytesSource :=
  if s.remaining ≤ 0 then (0, s)
  else
    let to_write := min s.remaining (min s.chunk_size (bufLen : Int))
    (to_write.toNat, { s with remaining := s.remaining - to_write })

/-- Total bytes delivered by a sequence of reads with the given buffer
lengths, together with the final state. -/
def RandomBytesSource.readList : RandomBytesSource → List Nat → Nat × RandomBytesSource
  | s, [] => (0, s)
  | s, n :: rest =>
      let r := s.readinto n
      let k := RandomBytesSource.readList r.2 rest
      (r.1 + k.1, k.2)

/-- Read repeatedly (buffer lengths `reqs i`, `reqs (i+1)`, ...) until a read
returns 0 bytes or the fuel runs out; returns the cumulative bytes delivered
and the final state. -/
def RandomBytesSource.drain (reqs : Nat → Nat) :
    RandomBytesSource → Nat → Nat → Nat × RandomBytesSource
  | s, _, 0 => (0, s)
  | s, i, fuel + 1 =>
      let r := s.readinto (reqs i)
      if r.1 = 0 then (0, s)
      else
        let rest := RandomBytesSource.drain reqs r.2 (i + 1) fuel
        (r.1 + rest.1, rest.2)

/-- Lowercase hexadecimal digit character for a value below 16. -/
def hexChar (d : Nat) : Char :=
  if d < 10 then Char.ofNat (48 + d) else Char.ofNat (87 + d)

/-- The `i`-th base-16 digit of `n`, least significant first. -/
def uuidHexDigit (n i : Nat) : Nat := n / 16 ^ i % 16

/-- `uuid.UUID.hex` of a 128-bit value: 32 lowercase hex characters,
most-significant first, zero-padded. -/
def uuidHex (n : Nat) : List Char :=
  ((List.range 32).map (fun i => hexChar (uuidHexDigit n i))).reverse

/-- The object key built each iteration: `s3load/{uuid4().hex}`. -/
def keyOf (n : Nat) : List Char := "s3load/".toList ++ uuidHex n

/-- A character is a lowercase hexadecimal digit. -/
def isLowerHexChar (c : Char) : Bool :=
  ('0' ≤ c && c ≤ '9') || ('a' ≤ c && c ≤ 'f')

/-- The arguments `handle_upload` consumes (after CLI parsing). -/
structure Args where
  endpoint : List Char
  bucket : List Char
  location : List Char
  object_size : List Char
  object_count : Int
deriving DecidableEq, Repr

/-- One structured record appended to the persistent log, mirroring the
`logger.error` / `logger.info` calls of `handle_upload`. -/
inductive LogRecord
  /-- `upload_failed | endpoint=… bucket=… key=… error=…`. -/
  | uploadFailed (endpoint bucket key err : List Char)
  /-- `upload_summary | endpoint=… region=… bucket=… objects=… size=…
  total_bytes=… duration_s=… throughput_mb_s=…`. -/
  | uploadSummary (endpoint location bucket : List Char) (objects : Int)
      (size : List Char) (totalBytes : Int) (duration throughput : ℚ)
  /-- `upload_object | key=… duration_s=…`. -/
  | uploadObject (key : List Char) (duration : ℚ)
deriving DecidableEq, Repr

/-- One line written to standard output by `handle_upload`. -/
inductive PrintLine
  /-- `Invalid --object-size: {exc}`. -/
  | invalidObjectSize (err : SizeError)
  /-- `Upload failed for key {key}: {exc}`. -/
  | uploadFailedFor (key err : List Char)
  /-- `Uploaded {n} objects of {size} to bucket '{bucket}' in {t}s.
  Throughput: {x} MB/s`. -/
  | summary (count : Int) (size bucket : List Char) (duration throughput : ℚ)
deriving DecidableEq, Repr

/-- The external collaborators of one run: the UUID source, the storage
client's outcome per iteration (`some err` models a raised `BotoCoreError` or
`ClientError`), the monotonic clock's elapsed readings, and whether
`fileobj.close()` raises at each iteration. -/
structure Collab where
  uuids : Nat → Nat
  clientErr : Nat → Option (List Char)
  perElapsed : Nat → ℚ
  overallElapsed : ℚ
  closeRaises : Nat → Bool

/-- Accumulated loop state of `handle_upload`, plus event counters for the
upload calls issued, the `close()` calls made, and the close exceptions
swallowed by the bare `except Exception: pass`. -/
structure LoopAcc where
  totalBytes : Int
  perObject : List (List Char × ℚ)
  attempts : Nat
  closeCalls : Nat
  closeSuppressed : Nat
deriving DecidableEq, Repr

/-- Outcome of the upload loop: failed at some key with an error, or ran to
completion. -/
inductive LoopResult
  | failed (acc : LoopAcc) (key err : List Char)
  | done (acc : LoopAcc)
deriving DecidableEq, Repr

/-- The `for _ in range(object_count)` loop of `handle_upload`: at iteration
`i` with `n` iterations left, build the key, create the stream, call
`upload_fileobj`; the `finally` block always calls `close()` and swallows its
exception; a client error logs-and-returns (fail-fast), success accumulates
bytes and the per-object duration. -/
def uploadLoop (size : Int) (co : Collab) : Nat → Nat → LoopAcc → LoopResult
  | _, 0, acc => .done acc
  | i, n + 1, acc =>
      let key := keyOf (co.uuids i)
      let acc' : LoopAcc :=
        { acc with
          attempts := acc.attempts + 1
          closeCalls := acc.closeCalls + 1
          closeSuppressed := acc.closeSuppressed + (if co.closeRaises i then 1 else 0) }
      match co.clientErr i with
      | some err => .failed acc' key err
      | none =>
          uploadLoop size co (i + 1) n
            { acc' with
              totalBytes := acc'.totalBytes + size
              perObject := acc'.perObject ++ [(key, co.perElapsed i)] }

/-- Lines 186-187 of `upload.py`: `mb = total_bytes / (1024 * 1024)` and
`throughput = mb / overall_elapsed if overall_elapsed > 0 else 0.0`. -/
def throughputOf (totalBytes : Int) (elapsed : ℚ) : ℚ :=
  let mb : ℚ := (totalBytes : ℚ) / (1024 * 1024)
  if 0 < elapsed then mb / elapsed else 0

/-- Observable outcome of one `handle_upload` run. -/
structure RunOutput where
  exitCode : Nat
  printed : List PrintLine
  logs : List LogRecord
  uploadsAttempted : Nat
  closeCalls : Nat
  closeErrorsSuppressed : Nat
  totalBytes : Int
  perObject : List (List Char × ℚ)
deriving DecidableEq, Repr

/-- `handle_upload(args)`: parse the size (failure prints and exits 2 with no
log record), run the upload loop; a loop failure logs `upload_failed`, prints
the error line and exits 1; completion logs `upload_summary` then one
`upload_object` record per object, prints the summary line and exits 0. -/
def handle_upload (args : Args) (co : Collab) : RunOutput :=
  match parse_size args.object_size with
  | .error e =>
      { exitCode := 2
        printed := [.invalidObjectSize e]
        logs := []
        uploadsAttempted := 0
        closeCalls := 0
        closeErrorsSuppressed := 0
        totalBytes := 0
        perObject := [] }
  | .ok size =>
      match uploadLoop size co 0 args.object_count.toNat ⟨0, [], 0, 0, 0⟩ with
      | .failed acc key err =>
          { exitCode := 1
            printed := [.uploadFailedFor key err]
            logs := [.uploadFailed args.endpoint args.bucket key err]
            uploadsAttempted := acc.attempts
            closeCalls := acc.closeCalls
            closeErrorsSuppressed := acc.closeSuppressed
            totalBytes := acc.totalBytes
            perObject := acc.perObject }
      | .done acc =>
          let throughput := throughputOf acc.totalBytes co.overallElapsed
          { exitCode := 0
            printed := [.summary args.object_count args.object_size args.bucket
              co.overallElapsed throughput]
            logs := .uploadSummary args.endpoint args.location args.bucket
                args.object_count args.object_size acc.totalBytes
                co.overallElapsed throughput ::
              acc.perObject.map (fun p => .uploadObject p.1 p.2)
            uploadsAttempted := acc.attempts
            closeCalls := acc.closeCalls
            closeErrorsSuppressed := acc.closeSuppressed
            totalBytes := acc.totalBytes
            perObject := acc.perObject }

/-- Base-10 value of a digit string. -/
def decimalVal (s : List Char) : Nat :=
  s.foldl (fun a c => a * 10 + digitVal c) 0

/-- How many of the iterations `i, i+1, …, i+k-1` see `close()` raise. -/
def closeSuppCount (co : Collab) : Nat → Nat → Nat
  | _, 0 => 0
  | i, k + 1 => (if co.closeRaises i then 1 else 0) + closeSuppCount co (i + 1) k

/-- The loop accumulator without the swallowed-close-exception counter. -/
def LoopAcc.visible (a : LoopAcc) :
    Int × List (List Char × ℚ) × Nat × Nat :=
  (a.totalBytes, a.perObject, a.attempts, a.closeCalls)

/-- The loop result without the swallowed-close-exception counter. -/
def LoopResult.visible :
    LoopResult → Bool × (Int × List (List Char × ℚ) × Nat × Nat) ×
      Option (List Char × List Char)
  | .failed acc key err => (false, acc.visible, some (key, err))
  | .done acc => (true, acc.visible, none)

/-- The accumulator carried by a loop result. -/
def LoopResult.acc : LoopResult → LoopAcc
  | .failed a _ _ => a
  | .done a => a

/-- Everything `handle_upload` makes observable apart from the count of
swallowed `close()` exceptions. -/
def RunOutput.visible (o : RunOutput) :
    Nat × List PrintLine × List LogRecord × Nat × Nat × Int ×
      List (List Char × ℚ) :=
  (o.exitCode, o.printed, o.logs, o.uploadsAttempted, o.closeCalls,
    o.totalBytes, o.perObject)

/-- Collaborators where every upload succeeds, UUIDs are `0, 1, 2, …`, each
per-object duration is 0, the whole run takes 2 seconds and no `close()`
raises. -/
def coAllOk : Collab :=
  { uuids := fun i => i
    clientErr := fun _ => none
    perElapsed := fun _ => 0
    overallElapsed := 2
    closeRaises := fun _ => false }

/-- Collaborators where the third upload call (index 2) raises a transport
error and earlier calls succeed. -/
def coFailThird : Collab :=
  { coAllOk with
    clientErr := fun i => if i = 2 then some "boom".toList else none }

/-- Arguments of end-to-end scenario A: three 1k objects. -/
def argsScenA : Args :=
  { endpoint := "http://s3.test".toList
    bucket := "bkt".toList
    location := "us-east-1".toList
    object_size := "1k".toList
    object_count := 3 }

/-- Arguments of end-to-end scenario B: five objects, third upload fails. -/
def argsScenB : Args :=
  { argsScenA with object_count := 5 }

/-- Arguments of end-to-end scenario C: malformed size expression. -/
def argsScenC : Args :=
  { argsScenA with object_size := "abc".toList }

/-- Arguments with a negative object count. -/
def argsNegCount : Args :=
  { argsScenA with object_size := "4k".toList, object_count := -1 }

/-! ### Lemmas about the random content source -/

theorem readinto_spec (s : RandomBytesSource) (n : Nat)
    (h0 : 0 ≤ s.remaining) (hc : 1 ≤ s.chunk_size) :
    ((s.readinto n).1 : Int) + (s.readinto n).2.remaining = s.remaining
    ∧ 0 ≤ (s.readinto n).2.remaining
    ∧ (s.readinto n).2.chunk_size = s.chunk_size := by
  have htw0 : 0 ≤ min s.remaining (min s.chunk_size (n : Int)) :=
    le_min h0 (le_min (by omega) (Int.natCast_nonneg n))
  have htw1 : min s.remaining (min s.chunk_size (n : Int)) ≤ s.remaining :=
    min_le_left _ _
  unfold RandomBytesSource.readinto
  split
  · exact ⟨by simp, h0, rfl⟩
  · simp only
    rw [Int.toNat_of_nonneg htw0]
    exact ⟨by omega, by omega, by trivial⟩

theorem readList_spec (reqs : List Nat) :
    ∀ s : RandomBytesSource, 0 ≤ s.remaining → 1 ≤ s.chunk_size →
    ((s.readList reqs).1 : Int) + (s.readList reqs).2.remaining = s.remaining
    ∧ 0 ≤ (s.readList reqs).2.remaining
    ∧ (s.readList reqs).2.chunk_size = s.chunk_size := by
  induction reqs with
  | nil => intro s h0 hc; simpa [RandomBytesSource.readList] using h0
  | cons n rest ih =>
      intro s h0 hc
      obtain ⟨h1, h2, h3⟩ := readinto_spec s n h0 hc
      obtain ⟨h4, h5, h6⟩ := ih (s.readinto n).2 h2 (h3 ▸ hc)
      unfold RandomBytesSource.readList
      refine ⟨?_, h5, h3 ▸ h6⟩
      push_cast
      omega

theorem readinto_exhausted (s : RandomBytesSource) (n : Nat)
    (h : s.remaining = 0) : s.readinto n = (0, s) := by
  unfold RandomBytesSource.readinto
  rw [if_pos (by omega)]

theorem drain_spec (reqs : Nat → Nat) (hreqs : ∀ i, 1 ≤ reqs i) :
    ∀ (fuel : Nat) (s : RandomBytesSource) (i : Nat),
    0 ≤ s.remaining → 1 ≤ s.chunk_size → s.remaining.toNat ≤ fuel →
    RandomBytesSource.drain reqs s i fuel =
      (s.remaining.toNat, { s with remaining := 0 }) := by
  intro fuel
  induction fuel with
  | zero =>
      intro s i h0 hc hf
      have hz : s.remaining = 0 := by omega
      cases s with
      | mk r c => simp_all [RandomBytesSource.drain]
  | succ fuel ih =>
      intro s i h0 hc hf
      by_cases hrem : s.remaining = 0
      · unfold RandomBytesSource.drain
        rw [readinto_exhausted s _ hrem]
        simp only [if_pos rfl]
        cases s with
        | mk r c => simp_all
      · set tw := min s.remaining (min s.chunk_size ((reqs i : Nat) : Int)) with htw
        have h1 : 1 ≤ min s.chunk_size ((reqs i : Nat) : Int) :=
          le_min hc (by exact_mod_cast hreqs i)
        have hw : 1 ≤ tw := le_min (by omega) h1
        have htw1 : tw ≤ s.remaining := min_le_left _ _
        have hread : s.readinto (reqs i) =
            (tw.toNat, { s with remaining := s.remaining - tw }) := by
          unfold RandomBytesSource.readinto
          rw [if_neg (by omega)]
        unfold RandomBytesSource.drain
        rw [hread]
        have hne : tw.toNat ≠ 0 := by omega
        rw [if_neg (by simpa using hne)]
        rw [ih { s with remaining := s.remaining - tw } (i + 1)
          (by simp only; omega) hc (by simp only; omega)]
        simp only [Prod.mk.injEq]
        exact ⟨by omega, by trivial⟩

/-! ### Claim theorems for the random content source -/

/-- C1: a `RandomBytesIO` built with `total_bytes ≥ 0` and `chunk_size ≥ 1`
never delivers more than `total_bytes` cumulatively over any sequence of
reads; reading repeatedly (any positive buffer sizes, enough reads) until
end-of-stream delivers exactly `total_bytes`; and once exhausted every
further read returns 0 bytes and leaves the state unchanged (no error). -/
theorem c1_source_bounded_and_exhaustive (total chunk : Int)
    (ht : 0 ≤ total) (hc : 1 ≤ chunk) (s : RandomBytesSource)
    (hs : RandomBytesSource.make total chunk = some s) :
    (∀ reqs : List Nat, ((s.readList reqs).1 : Int) ≤ total)
    ∧ (∀ reqs : Nat → Nat, (∀ i, 1 ≤ reqs i) →
        ∀ fuel, total.toNat ≤ fuel →
          ((RandomBytesSource.drain reqs s 0 fuel).1 : Int) = total
          ∧ ∀ m, (RandomBytesSource.drain reqs s 0 fuel).2.readinto m =
              (0, (RandomBytesSource.drain reqs s 0 fuel).2)) := by
  have hs' : s = { remaining := total, chunk_size := max 1 chunk } := by
    unfold RandomBytesSource.make at hs
    rw [if_neg (by omega)] at hs
    exact (Option.some_inj.mp hs).symm
  have h0 : 0 ≤ s.remaining := by rw [hs']; exact ht
  have h1 : 1 ≤ s.chunk_size := by rw [hs']; simp
  have hrem : s.remaining = total := by rw [hs']
  constructor
  · intro reqs
    obtain ⟨ha, hb, _⟩ := readList_spec reqs s h0 h1
    omega
  · intro reqs hreqs fuel hf
    have hd := drain_spec reqs hreqs fuel s 0 h0 h1 (by omega)
    refine ⟨by rw [hd]; simp; omega, ?_⟩
    intro m
    rw [hd]
    exact readinto_exhausted _ m rfl

/-- C1 witness: a concrete source (`total_bytes = 5`, `chunk_size = 2`) read
with buffers of 3 bytes. -/
theorem c1_source_bounded_and_exhaustive_witness :
    (0 : Int) ≤ 5 ∧ (1 : Int) ≤ 2
    ∧ RandomBytesSource.make 5 2 = some { remaining := 5, chunk_size := 2 }
    ∧ ((({ remaining := 5, chunk_size := 2 } : RandomBytesSource).readList
        [3, 3, 3]).1 : Int) ≤ 5
    ∧ ((RandomBytesSource.drain (fun _ => 3)
        { remaining := 5, chunk_size := 2 } 0 5).1 : Int) = 5 := by
  have h := c1_source_bounded_and_exhaustive 5 2 (by decide) (by decide)
    { remaining := 5, chunk_size := 2 } (by decide)
  exact ⟨by decide, by decide, by decide, h.1 [3, 3, 3],
    (h.2 (fun _ => 3) (by intro i; simp) 5 (by decide)).1⟩

/-- C2: one read on a source with `remaining > 0` delivers exactly
`min(requested, chunk_size, remaining)` bytes and decrements the remaining
counter by that amount; a read on an exhausted source returns 0 bytes. -/
theorem c2_single_read (s : RandomBytesSource) (n : Nat)
    (hc : 1 ≤ s.chunk_size) :
    (0 < s.remaining →
      ((s.readinto n).1 : Int) = min (n : Int) (min s.chunk_size s.remaining)
      ∧ (s.readinto n).2.remaining = s.remaining - ((s.readinto n).1 : Int)
      ∧ (s.readinto n).2.chunk_size = s.chunk_size)
    ∧ (s.remaining = 0 → s.readinto n = (0, s)) := by
  constructor
  · intro hpos
    unfold RandomBytesSource.readinto
    rw [if_neg (by omega)]
    simp only
    rw [Int.toNat_of_nonneg (by omega)]
    refine ⟨by omega, by omega, by trivial⟩
  · exact readinto_exhausted s n

/-- C2 witness: a source with 5 bytes remaining and chunk 2 read into a
3-byte buffer delivers `min 3 (min 2 5) = 2` bytes. -/
theorem c2_single_read_witness :
    (1 : Int) ≤ 2 ∧ (0 : Int) < 5
    ∧ ((({ remaining := 5, chunk_size := 2 } : RandomBytesSource).readinto 3).1 : Int)
        = min (3 : Int) (min 2 5) := by
  have h := (c2_single_read { remaining := 5, chunk_size := 2 } 3 (by decide)).1
    (by decide)
  exact ⟨by decide, by decide, h.1⟩

/-! ### Lemmas about the upload loop -/

theorem uploadLoop_step_ok (size : Int) (co : Collab) (i m : Nat)
    (acc : LoopAcc) (h : co.clientErr i = none) :
    uploadLoop size co i (m + 1) acc = uploadLoop size co (i + 1) m
      { totalBytes := acc.totalBytes + size
        perObject := acc.perObject ++ [(keyOf (co.uuids i), co.perElapsed i)]
        attempts := acc.attempts + 1
        closeCalls := acc.closeCalls + 1
        closeSuppressed := acc.closeSuppressed +
          (if co.closeRaises i then 1 else 0) } := by
  rw [uploadLoop, h]

theorem uploadLoop_step_fail (size : Int) (co : Collab) (i m : Nat)
    (acc : LoopAcc) (err : List Char) (h : co.clientErr i = some err) :
    uploadLoop size co i (m + 1) acc =
      .failed
        { acc with
          attempts := acc.attempts + 1
          closeCalls := acc.closeCalls + 1
          closeSuppressed := acc.closeSuppressed +
            (if co.closeRaises i then 1 else 0) }
        (keyOf (co.uuids i)) err := by
  rw [uploadLoop, h]

theorem uploadLoop_ok_steps (size : Int) (co : Collab) (k : Nat) :
    ∀ (i n : Nat) (acc : LoopAcc), k ≤ n →
    (∀ t, t < k → co.clientErr (i + t) = none) →
    uploadLoop size co i n acc = uploadLoop size co (i + k) (n - k)
      { totalBytes := acc.totalBytes + k * size
        perObject := acc.perObject ++ (List.range k).map
          (fun t => (keyOf (co.uuids (i + t)), co.perElapsed (i + t)))
        attempts := acc.attempts + k
        closeCalls := acc.closeCalls + k
        closeSuppressed := acc.closeSuppressed + closeSuppCount co i k } := by
  induction k with
  | zero =>
      intro i n acc _ _
      cases acc
      simp [closeSuppCount]
  | succ k ih =>
      intro i n acc hk h
      obtain ⟨m, rfl⟩ : ∃ m, n = m + 1 := ⟨n - 1, by omega⟩
      have h0 : co.clientErr i = none := by simpa using h 0 (Nat.succ_pos k)
      rw [uploadLoop_step_ok size co i m acc h0]
      rw [ih (i + 1) m _ (by omega)
        (fun t ht => by
          have := h (t + 1) (by omega)
          rwa [show i + (t + 1) = i + 1 + t by omega] at this)]
      have hidx : i + 1 + k = i + (k + 1) := by omega
      have hfun : ((fun t => (keyOf (co.uuids (i + t)), co.perElapsed (i + t)))
            ∘ Nat.succ)
          = fun t => (keyOf (co.uuids (i + 1 + t)), co.perElapsed (i + 1 + t)) := by
        funext t
        simp only [Function.comp_apply, Nat.succ_eq_add_one]
        rw [show i + (t + 1) = i + 1 + t by omega]
      have hlist :
          (acc.perObject ++ [(keyOf (co.uuids i), co.perElapsed i)]) ++
            (List.range k).map
              (fun t => (keyOf (co.uuids (i + 1 + t)), co.perElapsed (i + 1 + t)))
          = acc.perObject ++ (List.range (k + 1)).map
              (fun t => (keyOf (co.uuids (i + t)), co.perElapsed (i + t))) := by
        rw [List.range_succ_eq_map, List.map_cons, List.map_map, hfun]
        simp [List.append_assoc]
      have hsupp : acc.closeSuppressed + (if co.closeRaises i then 1 else 0) +
          closeSuppCount co (i + 1) k
          = acc.closeSuppressed + closeSuppCount co i (k + 1) := by
        simp [closeSuppCount]
        omega
      rw [hidx, hlist, show m + 1 - (k + 1) = m - k from by omega]
      congr 1
      simp only [LoopAcc.mk.injEq, and_true, true_and]
      refine ⟨by push_cast; ring, by omega, by omega, hsupp⟩

theorem uploadLoop_all_ok (size : Int) (co : Collab) (n : Nat)
    (h : ∀ t, t < n → co.clientErr t = none) :
    uploadLoop size co 0 n ⟨0, [], 0, 0, 0⟩ =
      .done
        { totalBytes := n * size
          perObject := (List.range n).map
            (fun t => (keyOf (co.uuids t), co.perElapsed t))
          attempts := n
          closeCalls := n
          closeSuppressed := closeSuppCount co 0 n } := by
  rw [uploadLoop_ok_steps size co n 0 n _ (le_refl n)
    (fun t ht => by simpa using h t ht)]
  rw [Nat.sub_self, uploadLoop]
  simp

theorem uploadLoop_fail_at (size : Int) (co : Collab) (n k : Nat)
    (err : List Char) (hk : k < n) (herr : co.clientErr k = some err)
    (hpre : ∀ t, t < k → co.clientErr t = none) :
    uploadLoop size co 0 n ⟨0, [], 0, 0, 0⟩ =
      .failed
        { totalBytes := k * size
          perObject := (List.range k).map
            (fun t => (keyOf (co.uuids t), co.perElapsed t))
          attempts := k + 1
          closeCalls := k + 1
          closeSuppressed := closeSuppCount co 0 k +
            (if co.closeRaises k then 1 else 0) }
        (keyOf (co.uuids k)) err := by
  rw [uploadLoop_ok_steps size co k 0 n _ (by omega)
    (fun t ht => by simpa using hpre t ht)]
  obtain ⟨m, hm⟩ : ∃ m, n - k = m + 1 := ⟨n - k - 1, by omega⟩
  simp only [Nat.zero_add]
  rw [hm, uploadLoop_step_fail size co k m _ err herr]
  simp

theorem handle_upload_all_ok (args : Args) (co : Collab) (size : Int)
    (hp : parse_size args.object_size = .ok size)
    (hok : ∀ i, i < args.object_count.toNat → co.clientErr i = none) :
    handle_upload args co =
      { exitCode := 0
        printed := [.summary args.object_count args.object_size args.bucket
          co.overallElapsed
          (throughputOf ((args.object_count.toNat : Int) * size)
            co.overallElapsed)]
        logs := .uploadSummary args.endpoint args.location args.bucket
            args.object_count args.object_size
            ((args.object_count.toNat : Int) * size) co.overallElapsed
            (throughputOf ((args.object_count.toNat : Int) * size)
              co.overallElapsed) ::
          (List.range args.object_count.toNat).map
            (fun t => .uploadObject (keyOf (co.uuids t)) (co.perElapsed t))
        uploadsAttempted := args.object_count.toNat
        closeCalls := args.object_count.toNat
        closeErrorsSuppressed := closeSuppCount co 0 args.object_count.toNat
        totalBytes := (args.object_count.toNat : Int) * size
        perObject := (List.range args.object_count.toNat).map
          (fun t => (keyOf (co.uuids t), co.perElapsed t)) } := by
  unfold handle_upload
  rw [hp]
  dsimp only
  rw [uploadLoop_all_ok size co _ hok]
  simp [List.map_map, Function.comp]

theorem handle_upload_fail_at (args : Args) (co : Collab) (size : Int)
    (k : Nat) (err : List Char)
    (hp : parse_size args.object_size = .ok size)
    (hk : k < args.object_count.toNat)
    (herr : co.clientErr k = some err)
    (hpre : ∀ t, t < k → co.clientErr t = none) :
    handle_upload args co =
      { exitCode := 1
        printed := [.uploadFailedFor (keyOf (co.uuids k)) err]
        logs := [.uploadFailed args.endpoint args.bucket
          (keyOf (co.uuids k)) err]
        uploadsAttempted := k + 1
        closeCalls := k + 1
        closeErrorsSuppressed := closeSuppCount co 0 k +
          (if co.closeRaises k then 1 else 0)
        totalBytes := (k : Int) * size
        perObject := (List.range k).map
          (fun t => (keyOf (co.uuids t), co.perElapsed t)) } := by
  unfold handle_upload
  rw [hp]
  dsimp only
  rw [uploadLoop_fail_at size co _ k err hk herr hpre]

theorem handle_upload_parse_error (args : Args) (co : Collab) (e : SizeError)
    (hp : parse_size args.object_size = .error e) :
    handle_upload args co =
      { exitCode := 2
        printed := [.invalidObjectSize e]
        logs := []
        uploadsAttempted := 0
        closeCalls := 0
        closeErrorsSuppressed := 0
        totalBytes := 0
        perObject := [] } := by
  unfold handle_upload
  rw [hp]

theorem handle_upload_failed (args : Args) (co : Collab) (size : Int)
    (acc : LoopAcc) (key err : List Char)
    (hp : parse_size args.object_size = .ok size)
    (hl : uploadLoop size co 0 args.object_count.toNat ⟨0, [], 0, 0, 0⟩ =
      .failed acc key err) :
    handle_upload args co =
      { exitCode := 1
        printed := [.uploadFailedFor key err]
        logs := [.uploadFailed args.endpoint args.bucket key err]
        uploadsAttempted := acc.attempts
        closeCalls := acc.closeCalls
        closeErrorsSuppressed := acc.closeSuppressed
        totalBytes := acc.totalBytes
        perObject := acc.perObject } := by
  unfold handle_upload
  rw [hp]
  dsimp only
  rw [hl]

theorem handle_upload_done (args : Args) (co : Collab) (size : Int)
    (acc : LoopAcc)
    (hp : parse_size args.object_size = .ok size)
    (hl : uploadLoop size co 0 args.object_count.toNat ⟨0, [], 0, 0, 0⟩ =
      .done acc) :
    handle_upload args co =
      { exitCode := 0
        printed := [.summary args.object_count args.object_size args.bucket
          co.overallElapsed (throughputOf acc.totalBytes co.overallElapsed)]
        logs := .uploadSummary args.endpoint args.location args.bucket
            args.object_count args.object_size acc.totalBytes co.overallElapsed
            (throughputOf acc.totalBytes co.overallElapsed) ::
          acc.perObject.map (fun p => .uploadObject p.1 p.2)
        uploadsAttempted := acc.attempts
        closeCalls := acc.closeCalls
        closeErrorsSuppressed := acc.closeSuppressed
        totalBytes := acc.totalBytes
        perObject := acc.perObject } := by
  unfold handle_upload
  rw [hp]
  dsimp only
  rw [hl]

theorem throughputOf_zero (e : ℚ) : throughputOf 0 e = 0 := by
  unfold throughputOf
  simp

/-! ### Lemmas about keys and hexadecimal identifiers -/

theorem hexDigit_lt (n i : Nat) : uuidHexDigit n i < 16 :=
  Nat.mod_lt _ (by norm_num)

theorem hexChar_inj : ∀ d₁, d₁ < 16 → ∀ d₂, d₂ < 16 →
    hexChar d₁ = hexChar d₂ → d₁ = d₂ := by decide

theorem hexChar_lower : ∀ d, d < 16 → isLowerHexChar (hexChar d) = true := by
  decide

theorem map_range_eq_imp {α : Type} (f g : Nat → α) :
    ∀ k : Nat, (List.range k).map f = (List.range k).map g →
    ∀ i, i < k → f i = g i := by
  intro k
  induction k with
  | zero => intro _ i hi; omega
  | succ k ih =>
      intro h i hi
      rw [List.range_succ, List.map_append, List.map_append] at h
      have hlen : ((List.range k).map f).length = ((List.range k).map g).length := by
        simp
      obtain ⟨h1, h2⟩ := List.append_inj h (by simpa using hlen)
      rcases Nat.lt_succ_iff_lt_or_eq.mp hi with h' | rfl
      · exact ih h1 i h'
      · simpa using h2

theorem pow16_digits_inj :
    ∀ k n m : Nat, n < 16 ^ k → m < 16 ^ k →
    (∀ i, i < k → n / 16 ^ i % 16 = m / 16 ^ i % 16) → n = m := by
  intro k
  induction k with
  | zero =>
      intro n m hn hm _
      simp only [pow_zero, Nat.lt_one_iff] at hn hm
      omega
  | succ k ih =>
      intro n m hn hm h
      have h0 : n % 16 = m % 16 := by simpa using h 0 (Nat.succ_pos k)
      have hdiv : n / 16 = m / 16 := by
        apply ih
        · rw [Nat.div_lt_iff_lt_mul (by norm_num)]
          calc n < 16 ^ (k + 1) := hn
            _ = 16 ^ k * 16 := by ring
        · rw [Nat.div_lt_iff_lt_mul (by norm_num)]
          calc m < 16 ^ (k + 1) := hm
            _ = 16 ^ k * 16 := by ring
        · intro i hi
          have := h (i + 1) (by omega)
          rw [Nat.div_div_eq_div_mul, Nat.div_div_eq_div_mul,
            show 16 * 16 ^ i = 16 ^ (i + 1) from (pow_succ' 16 i).symm]
          exact this
      omega

theorem uuidHex_inj (n m : Nat) (hn : n < 16 ^ 32) (hm : m < 16 ^ 32)
    (h : uuidHex n = uuidHex m) : n = m := by
  unfold uuidHex at h
  have h' := List.reverse_injective h
  apply pow16_digits_inj 32 n m hn hm
  intro i hi
  exact hexChar_inj _ (hexDigit_lt n i) _ (hexDigit_lt m i)
    (map_range_eq_imp _ _ 32 h' i hi)

theorem keyOf_inj (n m : Nat) (hn : n < 16 ^ 32) (hm : m < 16 ^ 32)
    (h : keyOf n = keyOf m) : n = m := by
  unfold keyOf at h
  exact uuidHex_inj n m hn hm (List.append_cancel_left h)

theorem uuidHex_length (n : Nat) : (uuidHex n).length = 32 := by
  simp [uuidHex]

theorem uuidHex_lower (n : Nat) :
    ∀ c ∈ uuidHex n, isLowerHexChar c = true := by
  intro c hc
  simp only [uuidHex, List.mem_reverse, List.mem_map, List.mem_range] at hc
  obtain ⟨i, _, rfl⟩ := hc
  exact hexChar_lower _ (hexDigit_lt n i)

/-! ### Claim theorems about the run -/

/-- C3: if the upload call at (0-based) index `k` fails with a storage-client
error while every earlier call succeeded, the run stops right after attempt
`k + 1` (no later object is attempted), logs the failure with the failing key
and error detail, prints one error line naming that key, and exits 1. -/
theorem c3_fail_fast (args : Args) (co : Collab) (size : Int) (k : Nat)
    (err : List Char)
    (hp : parse_size args.object_size = .ok size)
    (hk : k < args.object_count.toNat)
    (herr : co.clientErr k = some err)
    (hpre : ∀ t, t < k → co.clientErr t = none) :
    (handle_upload args co).exitCode = 1
    ∧ (handle_upload args co).uploadsAttempted = k + 1
    ∧ (handle_upload args co).logs =
        [.uploadFailed args.endpoint args.bucket (keyOf (co.uuids k)) err]
    ∧ (handle_upload args co).printed =
        [.uploadFailedFor (keyOf (co.uuids k)) err] := by
  rw [handle_upload_fail_at args co size k err hp hk herr hpre]
  exact ⟨rfl, rfl, rfl, rfl⟩

/-- C3 witness: scenario B — five objects requested, the third upload call
(index 2) fails, so exactly three calls are made and the run exits 1. -/
theorem c3_fail_fast_witness :
    parse_size argsScenB.object_size = .ok 1024
    ∧ 2 < argsScenB.object_count.toNat
    ∧ coFailThird.clientErr 2 = some "boom".toList
    ∧ (∀ t, t < 2 → coFailThird.clientErr t = none)
    ∧ (handle_upload argsScenB coFailThird).exitCode = 1
    ∧ (handle_upload argsScenB coFailThird).uploadsAttempted = 3 := by
  have h := c3_fail_fast argsScenB coFailThird 1024 2 "boom".toList
    (by decide) (by decide) (by decide) (by decide)
  exact ⟨by decide, by decide, by decide, by decide, h.1, h.2.1⟩

/-- C6: when every one of the `object_count ≥ 0` uploads succeeds (UUIDs are
distinct 128-bit values, as `uuid4` guarantees with overwhelming
probability), the run exits 0, transfers `object_count * size` bytes total,
attempts exactly `object_count` uploads, generates pairwise-distinct keys
each of the form `s3load/` + 32 lowercase hex characters, and writes one
summary log record plus one per-object record per upload; `object_count = 0`
gives zero uploads, zero bytes and throughput 0. -/
theorem c6_all_success (args : Args) (co : Collab) (size : Int)
    (hp : parse_size args.object_size = .ok size)
    (hcount : 0 ≤ args.object_count)
    (hok : ∀ i, i < args.object_count.toNat → co.clientErr i = none)
    (hlt : ∀ i, i < args.object_count.toNat → co.uuids i < 16 ^ 32)
    (hinj : ∀ i j, i < args.object_count.toNat → j < args.object_count.toNat →
      i ≠ j → co.uuids i ≠ co.uuids j) :
    (handle_upload args co).exitCode = 0
    ∧ (handle_upload args co).totalBytes = args.object_count * size
    ∧ (handle_upload args co).uploadsAttempted = args.object_count.toNat
    ∧ ((handle_upload args co).perObject.map Prod.fst).Pairwise
        (fun a b => a ≠ b)
    ∧ (∀ p ∈ (handle_upload args co).perObject,
        ∃ hex, p.1 = "s3load/".toList ++ hex ∧ hex.length = 32
          ∧ ∀ c ∈ hex, isLowerHexChar c = true)
    ∧ (handle_upload args co).logs =
        .uploadSummary args.endpoint args.location args.bucket
          args.object_count args.object_size (args.object_count * size)
          co.overallElapsed
          (throughputOf (args.object_count * size) co.overallElapsed)
        :: (handle_upload args co).perObject.map
            (fun p => .uploadObject p.1 p.2)
    ∧ (handle_upload args co).logs.length = args.object_count.toNat + 1
    ∧ (args.object_count = 0 →
        (handle_upload args co).uploadsAttempted = 0
        ∧ (handle_upload args co).totalBytes = 0
        ∧ throughputOf (handle_upload args co).totalBytes co.overallElapsed
            = 0) := by
  have H := handle_upload_all_ok args co size hp hok
  rw [H, Int.toNat_of_nonneg hcount] at *
  refine ⟨rfl, rfl, rfl, ?_, ?_, ?_, by simp, ?_⟩
  · rw [List.map_map]
    rw [List.pairwise_map]
    refine (List.pairwise_lt_range _).imp_of_mem ?_
    intro a b ha hb hab
    simp only [List.mem_range] at ha hb
    simp only [Function.comp_apply]
    intro hkey
    exact absurd (keyOf_inj _ _ (hlt a ha) (hlt b hb) hkey)
      (hinj a b ha hb (by omega))
  · intro p hp'
    simp only [List.mem_map, List.mem_range] at hp'
    obtain ⟨t, _, rfl⟩ := hp'
    exact ⟨uuidHex (co.uuids t), rfl, uuidHex_length _, uuidHex_lower _⟩
  · simp [List.map_map, Function.comp]
  · intro h0
    rw [h0]
    simp [throughputOf_zero]

/-- C6 witness: scenario A — three 1k objects, all uploads succeed. -/
theorem c6_all_success_witness :
    parse_size argsScenA.object_size = .ok 1024
    ∧ (0 : Int) ≤ argsScenA.object_count
    ∧ (handle_upload argsScenA coAllOk).exitCode = 0
    ∧ (handle_upload argsScenA coAllOk).totalBytes = 3072
    ∧ ((handle_upload argsScenA coAllOk).perObject.map Prod.fst).Pairwise
        (fun a b => a ≠ b)
    ∧ (handle_upload argsScenA coAllOk).logs.length = 4 := by
  have h := c6_all_success argsScenA coAllOk 1024 (by decide) (by decide)
    (by decide) (by decide) (fun i j _ _ hne => hne)
  refine ⟨by decide, by decide, h.1, ?_, h.2.2.2.1, ?_⟩
  · rw [h.2.1]; decide
  · rw [h.2.2.2.2.2.2.1]; decide

/-- C7: the throughput reported by a completed run is
`total_bytes / 1048576 / duration` MB/s when the duration is positive and 0
when the duration is 0; 10485760 bytes over 2.0 seconds reports 5 MB/s; and
a run that exits 0 reports exactly this value in its summary record. -/
theorem c7_throughput (t : Int) (e : ℚ) :
    (e = 0 → throughputOf t e = 0)
    ∧ (0 < e → throughputOf t e = (t : ℚ) / 1048576 / e)
    ∧ throughputOf 10485760 2 = 5
    ∧ (∀ (args : Args) (co : Collab),
        (handle_upload args co).exitCode = 0 →
        ∃ rest, (handle_upload args co).logs =
          .uploadSummary args.endpoint args.location args.bucket
            args.object_count args.object_size
            (handle_upload args co).totalBytes co.overallElapsed
            (throughputOf (handle_upload args co).totalBytes co.overallElapsed)
          :: rest) := by
  refine ⟨?_, ?_, ?_, ?_⟩
  · intro he
    unfold throughputOf
    rw [he]
    simp
  · intro he
    unfold throughputOf
    rw [if_pos he]
    norm_num
  · norm_num [throughputOf]
  · intro args co hexit
    cases hp : parse_size args.object_size with
    | error e' =>
        rw [handle_upload_parse_error args co e' hp] at hexit
        simp at hexit
    | ok size =>
        cases hl : uploadLoop size co 0 args.object_count.toNat
            ⟨0, [], 0, 0, 0⟩ with
        | failed acc key err =>
            rw [handle_upload_failed args co size acc key err hp hl] at hexit
            simp at hexit
        | done acc =>
            rw [handle_upload_done args co size acc hp hl]
            exact ⟨_, rfl⟩

/-- C10: a negative `object_count` is not rejected: `range` of a negative
count is empty, so the run performs zero upload calls and exits 0 with zero
total bytes and throughput 0, exactly as for `object_count = 0`. -/
theorem c10_negative_count (args : Args) (co : Collab) (size : Int)
    (hp : parse_size args.object_size = .ok size)
    (hneg : args.object_count < 0) :
    (handle_upload args co).exitCode = 0
    ∧ (handle_upload args co).uploadsAttempted = 0
    ∧ (handle_upload args co).totalBytes = 0
    ∧ throughputOf (handle_upload args co).totalBytes co.overallElapsed = 0
    ∧ (handle_upload args co).logs =
        [.uploadSummary args.endpoint args.location args.bucket
          args.object_count args.object_size 0 co.overallElapsed 0] := by
  have hz : args.object_count.toNat = 0 := Int.toNat_of_nonpos (by omega)
  have H := handle_upload_all_ok args co size hp
    (fun i hi => absurd hi (by omega))
  rw [hz] at H
  simp only [Int.natCast_zero, zero_mul, List.range_zero, List.map_nil] at H
  rw [H]
  refine ⟨rfl, rfl, rfl, throughputOf_zero _, ?_⟩
  simp [throughputOf_zero]

/-- C10 witness: `object_count = -1` with a valid size expression. -/
theorem c10_negative_count_witness :
    parse_size argsNegCount.object_size = .ok 4096
    ∧ argsNegCount.object_count < 0
    ∧ (handle_upload argsNegCount coAllOk).exitCode = 0
    ∧ (handle_upload argsNegCount coAllOk).uploadsAttempted = 0
    ∧ (handle_upload argsNegCount coAllOk).totalBytes = 0 := by
  have h := c10_negative_count argsNegCount coAllOk 4096 (by decide) (by decide)
  exact ⟨by decide, by decide, h.1, h.2.1, h.2.2.1⟩

theorem uploadLoop_close_eq (size : Int) (co : Collab) :
    ∀ (n i : Nat) (acc : LoopAcc), acc.closeCalls = acc.attempts →
    (uploadLoop size co i n acc).acc.closeCalls =
      (uploadLoop size co i n acc).acc.attempts := by
  intro n
  induction n with
  | zero =>
      intro i acc h
      simpa [uploadLoop, LoopResult.acc] using h
  | succ n ih =>
      intro i acc h
      rw [uploadLoop]
      cases hc : co.clientErr i with
      | some err =>
          simp only [LoopResult.acc]
          omega
      | none =>
          apply ih
          simp only
          omega

theorem uploadLoop_visible_indep (size : Int) (co : Collab) (f : Nat → Bool) :
    ∀ (n i : Nat) (acc₁ acc₂ : LoopAcc), acc₁.visible = acc₂.visible →
    (uploadLoop size { co with closeRaises := f } i n acc₁).visible =
      (uploadLoop size co i n acc₂).visible := by
  intro n
  induction n with
  | zero =>
      intro i acc₁ acc₂ h
      simpa [uploadLoop, LoopResult.visible] using h
  | succ n ih =>
      intro i acc₁ acc₂ h
      obtain ⟨h1, h2, h3, h4⟩ :
          acc₁.totalBytes = acc₂.totalBytes
          ∧ acc₁.perObject = acc₂.perObject
          ∧ acc₁.attempts = acc₂.attempts
          ∧ acc₁.closeCalls = acc₂.closeCalls := by
        simpa [LoopAcc.visible, Prod.ext_iff] using h
      rw [uploadLoop, uploadLoop]
      dsimp only
      cases hc : co.clientErr i with
      | some err =>
          simp [LoopResult.visible, LoopAcc.visible, h1, h2, h3, h4]
      | none =>
          apply ih
          simp [LoopAcc.visible, h1, h2, h3, h4]

/-- C9: the content stream is released on every exit path — exactly one
`close()` call per upload attempt, on success and on failure alike — and an
exception raised by `close()` is swallowed: everything observable about the
run (exit code, printed lines, log records, attempts, close calls, byte
totals, per-object results) is the same whatever the close outcomes are. -/
theorem c9_stream_release (args : Args) (co : Collab) (f : Nat → Bool) :
    (handle_upload args co).closeCalls = (handle_upload args co).uploadsAttempted
    ∧ (handle_upload args { co with closeRaises := f }).visible =
        (handle_upload args co).visible := by
  constructor
  · cases hp : parse_size args.object_size with
    | error e => rw [handle_upload_parse_error args co e hp]
    | ok size =>
        have hce := uploadLoop_close_eq size co args.object_count.toNat 0
          ⟨0, [], 0, 0, 0⟩ rfl
        cases hl : uploadLoop size co 0 args.object_count.toNat
            ⟨0, [], 0, 0, 0⟩ with
        | failed acc key err =>
            rw [handle_upload_failed args co size acc key err hp hl]
            rw [hl] at hce
            simpa [LoopResult.acc] using hce
        | done acc =>
            rw [handle_upload_done args co size acc hp hl]
            rw [hl] at hce
            simpa [LoopResult.acc] using hce
  · cases hp : parse_size args.object_size with
    | error e =>
        rw [handle_upload_parse_error args co e hp,
          handle_upload_parse_error args { co with closeRaises := f } e hp]
    | ok size =>
        have hv := uploadLoop_visible_indep size co f args.object_count.toNat 0
          ⟨0, [], 0, 0, 0⟩ ⟨0, [], 0, 0, 0⟩ rfl
        cases hl₁ : uploadLoop size { co with closeRaises := f } 0
            args.object_count.toNat ⟨0, [], 0, 0, 0⟩ with
        | failed acc₁ key₁ err₁ =>
            cases hl₂ : uploadLoop size co 0 args.object_count.toNat
                ⟨0, [], 0, 0, 0⟩ with
            | failed acc₂ key₂ err₂ =>
                rw [hl₁, hl₂] at hv
                obtain ⟨⟨hv1, hv2, hv3, hv4⟩, hv5, hv6⟩ :
                    (acc₁.totalBytes = acc₂.totalBytes
                      ∧ acc₁.perObject = acc₂.perObject
                      ∧ acc₁.attempts = acc₂.attempts
                      ∧ acc₁.closeCalls = acc₂.closeCalls)
                    ∧ key₁ = key₂ ∧ err₁ = err₂ := by
                  simpa [LoopResult.visible, LoopAcc.visible, Prod.ext_iff]
                    using hv
                rw [handle_upload_failed args { co with closeRaises := f } size
                    acc₁ key₁ err₁ hp hl₁,
                  handle_upload_failed args co size acc₂ key₂ err₂ hp hl₂]
                simp [RunOutput.visible, hv1, hv2, hv3, hv4, hv5, hv6]
            | done acc₂ =>
                rw [hl₁, hl₂] at hv
                simp [LoopResult.visible] at hv
        | done acc₁ =>
            cases hl₂ : uploadLoop size co 0 args.object_count.toNat
                ⟨0, [], 0, 0, 0⟩ with
            | failed acc₂ key₂ err₂ =>
                rw [hl₁, hl₂] at hv
                simp [LoopResult.visible] at hv
            | done acc₂ =>
                rw [hl₁, hl₂] at hv
                obtain ⟨hv1, hv2, hv3, hv4⟩ :
                    acc₁.totalBytes = acc₂.totalBytes
                    ∧ acc₁.perObject = acc₂.perObject
                    ∧ acc₁.attempts = acc₂.attempts
                    ∧ acc₁.closeCalls = acc₂.closeCalls := by
                  simpa [LoopResult.visible, LoopAcc.visible, Prod.ext_iff]
                    using hv
                rw [handle_upload_done args { co with closeRaises := f } size
                    acc₁ hp hl₁,
                  handle_upload_done args co size acc₂ hp hl₂]
                simp [RunOutput.visible, hv1, hv2, hv3, hv4]

/-! ### Lemmas about size parsing -/

theorem char_digit_bounds (c : Char) (h : c.isDigit = true) :
    48 ≤ c.val.toNat ∧ c.val.toNat ≤ 57 := by
  simp [Char.isDigit] at h
  obtain ⟨ha, hb⟩ := h
  have ha' : (48 : UInt32).toNat ≤ c.val.toNat := ha
  have hb' : c.val.toNat ≤ (57 : UInt32).toNat := hb
  norm_num [UInt32.size] at ha' hb'
  exact ⟨ha', hb'⟩

theorem toLower_of_digit (c : Char) (h : c.isDigit = true) :
    c.toLower = c := by
  obtain ⟨ha, hb⟩ := char_digit_bounds c h
  simp [Char.toLower]
  intro h1 h2
  exfalso
  simp [Char.toNat] at h1 h2
  omega

theorem pySpace_of_digit (c : Char) (h : c.isDigit = true) :
    pySpace c = false := by
  obtain ⟨ha, hb⟩ := char_digit_bounds c h
  simp only [pySpace, Bool.or_eq_false_iff, decide_eq_false_iff_not]
  refine ⟨⟨⟨⟨⟨?_, ?_⟩, ?_⟩, ?_⟩, ?_⟩, ?_⟩ <;>
    · intro hc
      rw [hc] at ha hb
      revert ha hb
      decide

theorem digit_ne_of_val (c x : Char) (h : c.isDigit = true)
    (hx : x.isDigit = false) : c ≠ x := by
  intro hc
  rw [hc] at h
  rw [h] at hx
  cases hx

theorem dropWhile_of_none {α : Type} (p : α → Bool) :
    ∀ l : List α, (∀ a ∈ l, p a = false) → l.dropWhile p = l := by
  intro l
  induction l with
  | nil => intro _; rfl
  | cons a t _ =>
      intro h
      rw [List.dropWhile_cons, if_neg]
      simp [h a (List.mem_cons_self _ _)]

theorem pyStrip_of_noSpace (s : List Char)
    (h : ∀ c ∈ s, pySpace c = false) : pyStrip s = s := by
  unfold pyStrip
  rw [dropWhile_of_none _ s h,
    dropWhile_of_none _ s.reverse (fun c hc => h c (List.mem_reverse.mp hc)),
    List.reverse_reverse]

theorem map_toLower_of_digits (ds : List Char)
    (h : ∀ c ∈ ds, c.isDigit = true) : ds.map Char.toLower = ds := by
  calc ds.map Char.toLower = ds.map id :=
        List.map_congr_left (fun c hc => toLower_of_digit c (h c hc))
    _ = ds := List.map_id ds

theorem stripSuffix_of_digits (ds : List Char)
    (hdig : ∀ c ∈ ds, c.isDigit = true) : stripSuffix ds = (1, ds) := by
  unfold stripSuffix
  cases hl : ds.getLast? with
  | none => simp
  | some x =>
      have hx : x ∈ ds := by
        have hmem : x ∈ ds.getLast? := by simp [hl, Option.mem_def]
        obtain ⟨hne', rfl⟩ := List.mem_getLast?_eq_getLast hmem
        exact List.getLast_mem hne'
      have hxd := hdig x hx
      rw [if_neg, if_neg, if_neg]
      · simp only [Option.some.injEq]
        exact digit_ne_of_val x 'g' hxd (by decide)
      · simp only [Option.some.injEq]
        exact digit_ne_of_val x 'm' hxd (by decide)
      · simp only [Option.some.injEq]
        exact digit_ne_of_val x 'k' hxd (by decide)

theorem pyDigitsCore_digits :
    ∀ (l : List Char) (acc : Nat), (∀ c ∈ l, c.isDigit = true) →
    pyDigitsCore acc l =
      some (l.foldl (fun a c => a * 10 + digitVal c) acc) := by
  intro l
  induction l with
  | nil => intro acc _; rfl
  | cons c t ih =>
      intro acc h
      have hc := h c (List.mem_cons_self _ _)
      rw [pyDigitsCore.eq_def]
      dsimp only
      rw [if_neg (digit_ne_of_val c '_' hc (by decide)),
        if_pos hc, ih _ (fun x hx => h x (List.mem_cons_of_mem c hx))]
      rfl

theorem pyDigits_digits (ds : List Char) (hne : ds ≠ [])
    (h : ∀ c ∈ ds, c.isDigit = true) :
    pyDigits ds = some (decimalVal ds) := by
  cases ds with
  | nil => exact absurd rfl hne
  | cons c t =>
      rw [pyDigits, if_pos (h c (List.mem_cons_self _ _)),
        pyDigitsCore_digits t (digitVal c)
          (fun x hx => h x (List.mem_cons_of_mem c hx))]
      simp [decimalVal, digitVal]

theorem pyIntParse_digits (ds : List Char) (hne : ds ≠ [])
    (h : ∀ c ∈ ds, c.isDigit = true) :
    pyIntParse ds = some ((decimalVal ds : Nat) : Int) := by
  unfold pyIntParse
  rw [pyStrip_of_noSpace ds (fun c hc => pySpace_of_digit c (h c hc))]
  cases ds with
  | nil => exact absurd rfl hne
  | cons c t =>
      have hc := h c (List.mem_cons_self _ _)
      dsimp only
      rw [if_neg (digit_ne_of_val c '-' hc (by decide)),
        if_neg (digit_ne_of_val c '+' hc (by decide)),
        pyDigits_digits (c :: t) hne h]
      rfl

theorem parse_size_digits (ds : List Char) (hne : ds ≠ [])
    (hdig : ∀ c ∈ ds, c.isDigit = true) :
    parse_size ds = .ok ((decimalVal ds : Nat) : Int) := by
  unfold parse_size
  dsimp only
  rw [pyStrip_of_noSpace ds (fun c hc => pySpace_of_digit c (hdig c hc)),
    map_toLower_of_digits ds hdig, if_neg hne,
    stripSuffix_of_digits ds hdig]
  dsimp only
  rw [pyIntParse_digits ds hne hdig]
  dsimp only
  rw [if_neg (by exact not_lt.mpr (Int.natCast_nonneg _))]
  simp

theorem stripSuffix_concat_k (ds : List Char) :
    stripSuffix (ds ++ ['k']) = (1024, ds) := by
  unfold stripSuffix
  rw [List.getLast?_concat]
  rw [if_pos rfl, List.dropLast_concat]

theorem stripSuffix_concat_m (ds : List Char) :
    stripSuffix (ds ++ ['m']) = (1024 ^ 2, ds) := by
  unfold stripSuffix
  rw [List.getLast?_concat]
  rw [if_neg (by decide), if_pos rfl, List.dropLast_concat]

theorem stripSuffix_concat_g (ds : List Char) :
    stripSuffix (ds ++ ['g']) = (1024 ^ 3, ds) := by
  unfold stripSuffix
  rw [List.getLast?_concat]
  rw [if_neg (by decide), if_neg (by decide), if_pos rfl,
    List.dropLast_concat]

theorem parse_size_digits_suffix (ds : List Char) (hne : ds ≠ [])
    (hdig : ∀ c ∈ ds, c.isDigit = true) (sfx low : Char) (mult : Int)
    (hlow : sfx.toLower = low) (hspace : pySpace sfx = false)
    (hmul : stripSuffix (ds ++ [low]) = (mult, ds)) :
    parse_size (ds ++ [sfx]) = .ok ((decimalVal ds : Nat) * mult) := by
  unfold parse_size
  dsimp only
  have hstrip : pyStrip (ds ++ [sfx]) = ds ++ [sfx] := by
    apply pyStrip_of_noSpace
    intro c hc
    rcases List.mem_append.mp hc with hc | hc
    · exact pySpace_of_digit c (hdig c hc)
    · rw [List.mem_singleton.mp hc]
      exact hspace
  rw [hstrip, List.map_append, map_toLower_of_digits ds hdig]
  simp only [List.map_cons, List.map_nil, hlow]
  rw [if_neg (by simp), hmul]
  dsimp only
  rw [pyIntParse_digits ds hne hdig]
  dsimp only
  rw [if_neg (by exact not_lt.mpr (Int.natCast_nonneg _))]

/-! ### Claim theorems about size parsing and failure reporting -/

/-- C4: for every decimal digit string, `parse_size` returns its value times
1024^0, and with a `k`/`m`/`g` suffix (either case) times 1024^1, 1024^2,
1024^3 respectively. -/
theorem c4_parse_size_values (ds : List Char) (hne : ds ≠ [])
    (hdig : ∀ c ∈ ds, c.isDigit = true) :
    parse_size ds = .ok ((decimalVal ds : Nat) : Int)
    ∧ parse_size (ds ++ ['k']) = .ok ((decimalVal ds : Nat) * 1024)
    ∧ parse_size (ds ++ ['K']) = .ok ((decimalVal ds : Nat) * 1024)
    ∧ parse_size (ds ++ ['m']) = .ok ((decimalVal ds : Nat) * 1024 ^ 2)
    ∧ parse_size (ds ++ ['M']) = .ok ((decimalVal ds : Nat) * 1024 ^ 2)
    ∧ parse_size (ds ++ ['g']) = .ok ((decimalVal ds : Nat) * 1024 ^ 3)
    ∧ parse_size (ds ++ ['G']) = .ok ((decimalVal ds : Nat) * 1024 ^ 3) :=
  ⟨parse_size_digits ds hne hdig,
    parse_size_digits_suffix ds hne hdig 'k' 'k' 1024 (by decide) (by decide)
      (stripSuffix_concat_k ds),
    parse_size_digits_suffix ds hne hdig 'K' 'k' 1024 (by decide) (by decide)
      (stripSuffix_concat_k ds),
    parse_size_digits_suffix ds hne hdig 'm' 'm' (1024 ^ 2) (by decide)
      (by decide) (stripSuffix_concat_m ds),
    parse_size_digits_suffix ds hne hdig 'M' 'm' (1024 ^ 2) (by decide)
      (by decide) (stripSuffix_concat_m ds),
    parse_size_digits_suffix ds hne hdig 'g' 'g' (1024 ^ 3) (by decide)
      (by decide) (stripSuffix_concat_g ds),
    parse_size_digits_suffix ds hne hdig 'G' 'g' (1024 ^ 3) (by decide)
      (by decide) (stripSuffix_concat_g ds)⟩

/-- C4 witness: the spec's value table — `4k` → 4096, `8m` → 8388608,
`2g` → 2147483648, `100K` → 102400, `0` → 0, `0g` → 0, `1` → 1. -/
theorem c4_parse_size_values_witness :
    ("4".toList ≠ [] ∧ ∀ c ∈ "4".toList, c.isDigit = true)
    ∧ parse_size ("4".toList ++ ['k']) = .ok 4096
    ∧ parse_size ("8".toList ++ ['m']) = .ok 8388608
    ∧ parse_size ("2".toList ++ ['g']) = .ok 2147483648
    ∧ parse_size ("100".toList ++ ['K']) = .ok 102400
    ∧ parse_size "0".toList = .ok 0
    ∧ parse_size ("0".toList ++ ['g']) = .ok 0
    ∧ parse_size "1".toList = .ok 1 := by
  refine ⟨⟨by decide, by decide⟩, ?_, ?_, ?_, ?_, ?_, ?_, ?_⟩
  · rw [(c4_parse_size_values "4".toList (by decide) (by decide)).2.1]
    decide
  · rw [(c4_parse_size_values "8".toList (by decide) (by decide)).2.2.2.1]
    decide
  · rw [(c4_parse_size_values "2".toList (by decide)
      (by decide)).2.2.2.2.2.1]
    decide
  · rw [(c4_parse_size_values "100".toList (by decide) (by decide)).2.2.1]
    decide
  · rw [(c4_parse_size_values "0".toList (by decide) (by decide)).1]
    decide
  · rw [(c4_parse_size_values "0".toList (by decide)
      (by decide)).2.2.2.2.2.1]
    decide
  · rw [(c4_parse_size_values "1".toList (by decide) (by decide)).1]
    decide

/-- C5: `parse_size` fails exactly when the trimmed input is empty, the
numeric portion is not a valid integer, or the parsed integer is negative —
in particular on `""`, `"abc"`, `"-5"`, `"5x"` and `"-1k"` — and a run whose
size expression fails to parse exits 2 without attempting any upload. -/
theorem c5_parse_size_failures :
    parse_size "".toList = .error .emptyValue
    ∧ parse_size "abc".toList = .error (.invalidValue "abc".toList)
    ∧ parse_size "-5".toList = .error .negative
    ∧ parse_size "5x".toList = .error (.invalidValue "5x".toList)
    ∧ parse_size "-1k".toList = .error .negative
    ∧ (∀ s : List Char, isError (parse_size s) = true ↔
        ((pyStrip s).map Char.toLower = []
          ∨ pyIntParse (sizeNumericPortion s) = none
          ∨ ∃ v, pyIntParse (sizeNumericPortion s) = some v ∧ v < 0))
    ∧ (∀ (args : Args) (co : Collab) (e : SizeError),
        parse_size args.object_size = .error e →
        (handle_upload args co).exitCode = 2
        ∧ (handle_upload args co).uploadsAttempted = 0
        ∧ (handle_upload args co).printed = [.invalidObjectSize e]) := by
  refine ⟨by decide, by decide, by decide, by decide, by decide, ?_, ?_⟩
  · intro s
    unfold parse_size sizeNumericPortion
    dsimp only
    by_cases h : (pyStrip s).map Char.toLower = []
    · rw [if_pos h]
      simp [isError, h]
    · rw [if_neg h]
      cases hpi : pyIntParse (stripSuffix ((pyStrip s).map Char.toLower)).2 with
      | none => simp [isError, h, hpi]
      | some v =>
          dsimp only
          by_cases hv : v < 0
          · rw [if_pos hv]
            simp only [isError, true_iff]
            exact Or.inr (Or.inr ⟨v, rfl, hv⟩)
          · rw [if_neg hv]
            simp [isError, h, hpi, hv]
  · intro args co e hp
    rw [handle_upload_parse_error args co e hp]
    exact ⟨rfl, rfl, rfl⟩

/-- C8 counterexample: scenario C (`object_size = "abc"`): the size-parse
failure is printed to the user-facing output and the run exits 2, but no
record at all is written to the persistent log — refuting the claim that
every failure is also logged. -/
theorem c8_counterexample_parse_failure_not_logged :
    isError (parse_size argsScenC.object_size) = true
    ∧ (handle_upload argsScenC coAllOk).exitCode = 2
    ∧ (handle_upload argsScenC coAllOk).printed =
        [.invalidObjectSize (.invalidValue "abc".toList)]
    ∧ (handle_upload argsScenC coAllOk).logs = [] := by
  refine ⟨by decide, by decide, by decide, by decide⟩

/-- C8 (amended): an `UploadFailure` is reported both to the user-facing
output and to the persistent log, while an `InvalidSizeFormat` failure is
reported to the user-facing output only — the run writes no log record in
that case. -/
theorem c8_failures_reported :
    (∀ (args : Args) (co : Collab) (size : Int) (k : Nat) (err : List Char),
      parse_size args.object_size = .ok size →
      k < args.object_count.toNat →
      co.clientErr k = some err →
      (∀ t, t < k → co.clientErr t = none) →
      (handle_upload args co).printed =
        [.uploadFailedFor (keyOf (co.uuids k)) err]
      ∧ (handle_upload args co).logs =
        [.uploadFailed args.endpoint args.bucket (keyOf (co.uuids k)) err])
    ∧ (∀ (args : Args) (co : Collab) (e : SizeError),
      parse_size args.object_size = .error e →
      (handle_upload args co).printed = [.invalidObjectSize e]
      ∧ (handle_upload args co).logs = []) := by
  constructor
  · intro args co size k err hp hk herr hpre
    rw [handle_upload_fail_at args co size k err hp hk herr hpre]
    exact ⟨rfl, rfl⟩
  · intro args co e hp
    rw [handle_upload_parse_error args co e hp]
    exact ⟨rfl, rfl⟩

end S3Load
